import Mathlib

/-!
Shallow embedding of the `taskflow` CLI repository (config.py, progress.py,
tasks.py) and a verification of its stated properties.

Conventions of the embedding:
* Python `int` is modelled as `ℤ`; Python `float` values that only ever feed
  exact comparisons (probabilities, sleep bounds, clock readings) are
  modelled as `ℚ`.
* The global random stream (`random.random()` / `random.uniform`) is a
  function `draws : ℕ → ℚ` consumed one value per call, with the next index
  threaded through the execution state (`ridx`).  `random.uniform` consumes
  one draw; its value only feeds `anyio.sleep` and is otherwise discarded.
* `time.perf_counter()` is a function `clock : ℕ → ℚ` consumed one value per
  call (`tidx` is the next index).
* `datetime.now().strftime(...)` strings are passed in as parameters.
* Fallible construction (`TaskConfig.__post_init__` raising `ValueError`)
  is modelled with `Except String`.
-/

namespace Taskflow

/-! ### config.py -/

/-- Embeds `LoopConfig` from config.py (a frozen dataclass of policy bounds). -/
structure LoopConfig where
  outer_min : ℤ
  outer_max : ℤ
  middle_min : ℤ
  middle_max : ℤ
  inner_min : ℤ
  inner_max : ℤ

/-- The default `LoopConfig()` used by `TaskConfig.__post_init__`. -/
def loopConfig : LoopConfig :=
  { outer_min := 0, outer_max := 1000, middle_min := 0, middle_max := 10,
    inner_min := 1, inner_max := 20 }

/-- Embeds the `TaskConfig` dataclass fields from config.py. -/
structure TaskConfig where
  outer_iterations : ℤ
  middle_iterations : ℤ
  inner_iterations : ℤ
  short_circuit_probability : ℚ
  sleep_min : ℚ
  sleep_max : ℚ
  report_path : String

/-- Embeds `TaskConfig(...)` construction including `__post_init__`
validation: the three iteration counts are checked against `LoopConfig()`
bounds, in source order; a failed check raises `ValueError` (modelled as
`Except.error`).  No other field is examined by `__post_init__`. -/
def mkTaskConfig (outer middle inner : ℤ) (p smin smax : ℚ) (path : String) :
    Except String TaskConfig :=
  if ¬ (loopConfig.outer_min ≤ outer ∧ outer ≤ loopConfig.outer_max) then
    Except.error ("outer_iterations must be between " ++ toString loopConfig.outer_min
      ++ " and " ++ toString loopConfig.outer_max)
  else if ¬ (loopConfig.middle_min ≤ middle ∧ middle ≤ loopConfig.middle_max) then
    Except.error ("middle_iterations must be between " ++ toString loopConfig.middle_min
      ++ " and " ++ toString loopConfig.middle_max)
  else if ¬ (loopConfig.inner_min ≤ inner ∧ inner ≤ loopConfig.inner_max) then
    Except.error ("inner_iterations must be between " ++ toString loopConfig.inner_min
      ++ " and " ++ toString loopConfig.inner_max)
  else
    Except.ok { outer_iterations := outer, middle_iterations := middle,
                inner_iterations := inner, short_circuit_probability := p,
                sleep_min := smin, sleep_max := smax, report_path := path }

/-- Embeds the `TaskStats` dataclass from config.py. -/
structure TaskStats where
  total_outer_iterations : ℤ
  total_middle_iterations : ℤ
  total_inner_iterations : ℤ
  short_circuit_count : ℤ
  total_elapsed_seconds : ℚ
  messages : List String

/-- The dataclass defaults: `TaskStats()`. -/
def TaskStats.init : TaskStats :=
  { total_outer_iterations := 0, total_middle_iterations := 0,
    total_inner_iterations := 0, short_circuit_count := 0,
    total_elapsed_seconds := 0, messages := [] }

/-- Embeds `TaskStats.add_message`: append to the stats message list. -/
def TaskStats.add_message (s : TaskStats) (m : String) : TaskStats :=
  { s with messages := s.messages ++ [m] }

/-! ### progress.py -/

/-- Python `int(x)` on a float: truncation toward zero. -/
def pyTrunc (q : ℚ) : ℤ :=
  if 0 ≤ q then ⌊q⌋ else ⌈q⌉

/-- Pads a rendered integer with leading zeros to width 2, as Python's
format spec `02d` does (for width 2 the sign-aware fill coincides with
plain left-padding, since a signed rendering is already ≥ 2 characters). -/
def zfill2 (s : String) : String :=
  if s.length < 2 then String.mk (List.replicate (2 - s.length) '0') ++ s else s

/-- Python `f-string` formatting of an `int` with format spec `02d`. -/
def fmt02d (n : ℤ) : String :=
  zfill2 (toString n)

/-- Embeds `format_time` from progress.py.  Python `divmod` is floor
division; for the positive divisors 3600 and 60 used here this coincides
with Euclidean division, which is `/` and `%` on `ℤ`, so those model it
exactly. -/
def format_time (seconds : ℚ) : String :=
  let t := pyTrunc seconds
  let hours := t / 3600
  let remainder := t % 3600
  let minutes := remainder / 60
  let secs := remainder % 60
  fmt02d hours ++ ":" ++ fmt02d minutes ++ ":" ++ fmt02d secs

/-- The fields of one `rich` progress task that the source reads or writes
through `Progress.update` / `add_task`: `completed`, `total`, and the two
custom text fields.  `Progress.update` stores the given values verbatim. -/
structure BarTask where
  completed : ℤ
  total : ℤ
  time_display : String
  status : String

/-- The mutable state of a `ProgressManager` (progress.py): the constructor
fields, the activity-log store, both bar tasks, the start times and step
counters.  `advance_inner_calls` is a ghost field with no counterpart in
the source: it is written (only) by `advance_inner`, recording the
`(step, total)` argument pair of every call, so that properties about the
sequence of `advance_inner` invocations can be stated. -/
structure PMState where
  outer_total : ℤ
  inner_total : ℤ
  messages : List String
  outerTask : BarTask
  innerTask : BarTask
  outer_start_time : ℚ
  inner_start_time : ℚ
  current_outer_step : ℤ
  inner_completed_steps : ℤ
  advance_inner_calls : List (ℤ × ℤ)

/-- Embeds `ProgressManager.__aenter__`: both tasks are created with
`completed=0`, the given totals, time display `00:00:00` and status
`0/total`; the two start times record the two `perf_counter()` readings. -/
def PMState.start (outer_total inner_total : ℤ) (now1 now2 : ℚ) : PMState :=
  { outer_total := outer_total, inner_total := inner_total,
    messages := [],
    outerTask := { completed := 0, total := outer_total,
                   time_display := ("00:00:00"),
                   status := ("0/") ++ toString outer_total },
    innerTask := { completed := 0, total := inner_total,
                   time_display := ("00:00:00"),
                   status := ("0/") ++ toString inner_total },
    outer_start_time := now1, inner_start_time := now2,
    current_outer_step := 0, inner_completed_steps := 0,
    advance_inner_calls := [] }

/-- Embeds `ProgressManager.add_message`: append to the unbounded store
(`_update_display` is a no-op in the source). -/
def PMState.add_message (pm : PMState) (m : String) : PMState :=
  { pm with messages := pm.messages ++ [m] }

/-- Embeds `ProgressManager.advance_outer(step)`; `now` is the
`perf_counter()` reading it takes. -/
def PMState.advance_outer (pm : PMState) (step : ℤ) (now : ℚ) : PMState :=
  { pm with
    current_outer_step := step,
    outerTask := { completed := step, total := pm.outerTask.total,
                   time_display := format_time (now - pm.outer_start_time),
                   status := toString step ++ ("/") ++ toString pm.outer_total } }

/-- Embeds `ProgressManager.reset_inner(new_total)`; `now` is the
`perf_counter()` reading it takes. -/
def PMState.reset_inner (pm : PMState) (new_total : ℤ) (now : ℚ) : PMState :=
  { pm with
    inner_start_time := now,
    inner_completed_steps := 0,
    innerTask := { completed := 0, total := new_total,
                   time_display := ("00:00:00"),
                   status := ("0/") ++ toString new_total } }

/-- Embeds `ProgressManager.advance_inner(step, total)`: the given values
are stored verbatim (no clamping appears in the source).  The ghost call
log records the argument pair. -/
def PMState.advance_inner (pm : PMState) (step total : ℤ) (now : ℚ) : PMState :=
  { pm with
    inner_completed_steps := step,
    innerTask := { completed := step, total := total,
                   time_display := format_time (now - pm.inner_start_time),
                   status := toString step ++ ("/") ++ toString total },
    advance_inner_calls := pm.advance_inner_calls ++ [(step, total)] }

/-- Embeds `ProgressManager.complete_outer()`. -/
def PMState.complete_outer (pm : PMState) (now : ℚ) : PMState :=
  { pm with
    outerTask := { completed := pm.outer_total, total := pm.outerTask.total,
                   time_display := format_time (now - pm.outer_start_time),
                   status := ("Complete!") } }

/-- Embeds `ProgressManager.complete_inner(total)`. -/
def PMState.complete_inner (pm : PMState) (total : ℤ) (now : ℚ) : PMState :=
  { pm with
    innerTask := { completed := total, total := total,
                   time_display := format_time (now - pm.inner_start_time),
                   status := ("Complete!") } }

/-- The activity-log row text built by `_create_layout` for one message. -/
def logRowText (m : String) : String :=
  ("  [dim]>[/dim] ") ++ m

/-- The `recent_messages` list computed by `_create_layout`:
`self._messages[-10:] if self._messages else ["Waiting for tasks..."]`.
Python's `l[-10:]` is the trailing `min(10, len l)` elements, i.e.
`l.drop (l.length - 10)`. -/
def recentMessages (msgs : List String) : List String :=
  if msgs.isEmpty then [("Waiting for tasks...")] else msgs.drop (msgs.length - 10)

/-- The content of the display tree built by `_create_layout` that the
claims are about: the two bar tasks shown in the progress panel and the
rows of the activity-log panel. -/
structure LayoutView where
  outerBar : BarTask
  innerBar : BarTask
  activityRows : List String

/-- Embeds `ProgressManager._create_layout` (restricted to the displayed
state; panel titles/styles are fixed text). -/
def PMState.create_layout (pm : PMState) : LayoutView :=
  { outerBar := pm.outerTask, innerBar := pm.innerTask,
    activityRows := (recentMessages pm.messages).map logRowText }
/-! ### tasks.py — the log-message texts

Each definition renders one Python f-string of tasks.py verbatim, with the
placeholders supplied as arguments. -/

/-- Log text `"[cyan]Starting inner loop[/cyan] (outer=.., middle=..)"`. -/
def msgInnerStart (o m : ℤ) : String :=
  ("[cyan]Starting inner loop[/cyan] (outer=") ++ toString o
    ++ (", middle=") ++ toString m ++ (")")

/-- Log text `"[yellow]Short-circuit[/yellow] at inner iteration .. (outer=.., middle=..)"`. -/
def msgShortCircuit (i : ℕ) (o m : ℤ) : String :=
  ("[yellow]Short-circuit[/yellow] at inner iteration ") ++ toString i
    ++ (" (outer=") ++ toString o ++ (", middle=") ++ toString m ++ (")")

/-- Stats text `"Short-circuit at outer=.., middle=.., inner=.."`. -/
def msgShortCircuitStats (o m : ℤ) (i : ℕ) : String :=
  ("Short-circuit at outer=") ++ toString o ++ (", middle=") ++ toString m
    ++ (", inner=") ++ toString i

/-- Log text `"[dim]Inner progress:[/dim] ../.. (outer=.., middle=..)"`. -/
def msgInnerProgress (completed : ℕ) (inner o m : ℤ) : String :=
  ("[dim]Inner progress:[/dim] ") ++ toString completed ++ ("/") ++ toString inner
    ++ (" (outer=") ++ toString o ++ (", middle=") ++ toString m ++ (")")

/-- Log text `"[blue]Starting middle loop[/blue] (outer=..)"`. -/
def msgMiddleStart (o : ℤ) : String :=
  ("[blue]Starting middle loop[/blue] (outer=") ++ toString o ++ (")")

/-- Log text `"[green]Middle iteration ../..[/green] (outer=..)"`. -/
def msgMiddleIter (j : ℕ) (middle o : ℤ) : String :=
  ("[green]Middle iteration ") ++ toString (j + 1) ++ ("/") ++ toString middle
    ++ ("[/green] (outer=") ++ toString o ++ (")")

/-- Log text `"[green]Completed middle loop[/green] (outer=.., inner_steps=../..)"`. -/
def msgMiddleDone (o : ℤ) (cum : ℕ) (tis : ℤ) : String :=
  ("[green]Completed middle loop[/green] (outer=") ++ toString o
    ++ (", inner_steps=") ++ toString cum ++ ("/") ++ toString tis ++ (")")

/-- Log text `"[bold cyan]Outer iteration ../..[/bold cyan]"`. -/
def msgOuterIter (i : ℕ) (outer : ℤ) : String :=
  ("[bold cyan]Outer iteration ") ++ toString (i + 1) ++ ("/") ++ toString outer
    ++ ("[/bold cyan]")

/-- Stats text `"Outer iteration .. started"`. -/
def msgOuterIterStats (i : ℕ) : String :=
  ("Outer iteration ") ++ toString (i + 1) ++ (" started")

/-- Stats text `"Configuration: outer=.., middle=.., inner=.."`. -/
def msgConfiguration (cfg : TaskConfig) : String :=
  ("Configuration: outer=") ++ toString cfg.outer_iterations
    ++ (", middle=") ++ toString cfg.middle_iterations
    ++ (", inner=") ++ toString cfg.inner_iterations

/-! ### tasks.py — the executor -/

/-- The state threaded through the executor: the statistics aggregate, the
progress-manager state, and the next indices into the random-draw stream
(`ridx`) and the clock stream (`tidx`). -/
structure ExecState where
  stats : TaskStats
  pm : PMState
  ridx : ℕ
  tidx : ℕ

/-- Applies a pure update to the `stats` component. -/
def ExecState.onStats (st : ExecState) (f : TaskStats → TaskStats) : ExecState :=
  { st with stats := f st.stats }

/-- Applies a pure update to the `pm` component. -/
def ExecState.onPM (st : ExecState) (f : PMState → PMState) : ExecState :=
  { st with pm := f st.pm }

/-- Consumes one value of the random stream (`random.random()` or
`random.uniform`). -/
def ExecState.consumeDraw (st : ExecState) : ExecState :=
  { st with ridx := st.ridx + 1 }

/-- The short-circuit arm of the inner-loop body (tasks.py lines 32-41):
the check's `random.random()` draw has been consumed, the short-circuit is
logged to the activity log, `short_circuit_count` is bumped, and the stats
message is recorded. -/
def innerShortCircuitStep (o m : ℤ) (i : ℕ) (st : ExecState) : ExecState :=
  let st1 := st.consumeDraw
  let st2 := st1.onPM (fun pm => pm.add_message (msgShortCircuit i o m))
  let st3 := st2.onStats (fun s => { s with short_circuit_count := s.short_circuit_count + 1 })
  st3.onStats (fun s => s.add_message (msgShortCircuitStats o m i))

/-- The work arm of the inner-loop body (tasks.py lines 43-54): when
`i > 0` the check's `random.random()` draw was consumed; `random.uniform`
consumes one further draw (feeding only `anyio.sleep`); `completed`
becomes `i + 1`, `total_inner_iterations` is bumped, and every fifth
completed step (or the final one) logs a progress line. -/
def innerWorkStep (cfg : TaskConfig) (o m : ℤ) (i : ℕ) (st : ExecState) : ExecState :=
  let st1 := if 0 < i then st.consumeDraw else st
  let st2 := st1.consumeDraw
  let completed2 := i + 1
  let st3 := st2.onStats (fun s => { s with total_inner_iterations := s.total_inner_iterations + 1 })
  if completed2 % 5 = 0 ∨ (completed2 : ℤ) = cfg.inner_iterations then
    st3.onPM (fun pm => pm.add_message (msgInnerProgress completed2 cfg.inner_iterations o m))
  else st3

/-- The `for i in range(...)` body of `inner_loop` (tasks.py), written as a
recursion on the remaining iteration count `fuel`, with the current loop
index `i` and the `completed` accumulator.  The short-circuit check never
consumes a draw when `i = 0` (and the conjunction is then false), matching
Python's short-circuit evaluation of `i > 0 and random.random() < p`.  On
a short-circuit the loop returns `completed` unchanged; otherwise the work
step runs and the loop continues with `completed = i + 1`. -/
def inner_loop_go (cfg : TaskConfig) (draws : ℕ → ℚ) (o m : ℤ) :
    ℕ → ℕ → ℕ → ExecState → ExecState × ℕ
  | _, 0, completed, st => (st, completed)
  | i, fuel + 1, completed, st =>
    if 0 < i ∧ draws st.ridx < cfg.short_circuit_probability then
      (innerShortCircuitStep o m i st, completed)
    else
      inner_loop_go cfg draws o m (i + 1) fuel (i + 1) (innerWorkStep cfg o m i st)

/-- Embeds `inner_loop` from tasks.py: the starting log line, then the
`range(config.inner_iterations)` loop (`range` of a negative int is empty,
matching `Int.toNat`).  Returns the updated state and the number of
completed iterations. -/
def inner_loop (cfg : TaskConfig) (draws : ℕ → ℚ) (o m : ℤ)
    (st : ExecState) : ExecState × ℕ :=
  let st1 := st.onPM (fun pm => pm.add_message (msgInnerStart o m))
  inner_loop_go cfg draws o m 0 cfg.inner_iterations.toNat 0 st1

/-- One iteration of the middle loop (tasks.py lines 79-94): the
iteration log line, the inner loop, accumulating its result into
`cumulative_inner`, bumping `total_middle_iterations`, then
`advance_inner(cumulative_inner, total_inner_steps)` (one `perf_counter`
reading) and the `anyio.sleep(sleep_min)` pause (no stream consumption).
Returns the new state and the new `cumulative_inner`. -/
def middleStep (cfg : TaskConfig) (draws clock : ℕ → ℚ) (o tis : ℤ) (j cum : ℕ)
    (st : ExecState) : ExecState × ℕ :=
  let st1 := st.onPM (fun pm => pm.add_message (msgMiddleIter j cfg.middle_iterations o))
  let res := inner_loop cfg draws o (j : ℤ) st1
  let cumulative2 := cum + res.2
  let st2 := res.1.onStats (fun s => { s with total_middle_iterations := s.total_middle_iterations + 1 })
  let st3 := { st2 with pm := st2.pm.advance_inner (cumulative2 : ℤ) tis (clock st2.tidx), tidx := st2.tidx + 1 }
  (st3, cumulative2)

/-- The `for j in range(config.middle_iterations)` loop of `middle_loop`,
with loop index `j`, remaining count `fuel` and the `cumulative_inner`
accumulator; `tis` is the precomputed `total_inner_steps`. -/
def middle_loop_go (cfg : TaskConfig) (draws clock : ℕ → ℚ) (o : ℤ) (tis : ℤ) :
    ℕ → ℕ → ℕ → ExecState → ExecState × ℕ
  | _, 0, cumulative, st => (st, cumulative)
  | j, fuel + 1, cumulative, st =>
    let s := middleStep cfg draws clock o tis j cumulative st
    middle_loop_go cfg draws clock o tis (j + 1) fuel s.2 s.1

/-- The preamble of `middle_loop` (tasks.py lines 70-75): the starting log
line, then `reset_inner(total_inner_steps)` with
`total_inner_steps = middle_iterations * inner_iterations` (one
`perf_counter` reading). -/
def middlePrep (cfg : TaskConfig) (clock : ℕ → ℚ) (o : ℤ) (st : ExecState) : ExecState :=
  let st1 := st.onPM (fun pm => pm.add_message (msgMiddleStart o))
  { st1 with pm := st1.pm.reset_inner (cfg.middle_iterations * cfg.inner_iterations) (clock st1.tidx), tidx := st1.tidx + 1 }

/-- Embeds `middle_loop` from tasks.py: the preamble, the middle
iterations, then `complete_inner(cumulative_inner)` (one `perf_counter`
reading) and the completion log line. -/
def middle_loop (cfg : TaskConfig) (draws clock : ℕ → ℚ) (o : ℤ)
    (st : ExecState) : ExecState :=
  let tis : ℤ := cfg.middle_iterations * cfg.inner_iterations
  let res := middle_loop_go cfg draws clock o tis 0 cfg.middle_iterations.toNat 0 (middlePrep cfg clock o st)
  let st3 := { res.1 with pm := res.1.pm.complete_inner (res.2 : ℤ) (clock res.1.tidx), tidx := res.1.tidx + 1 }
  st3.onPM (fun pm => pm.add_message (msgMiddleDone o res.2 tis))

/-- One iteration of the outer loop (tasks.py lines 117-129): the two log
lines, the middle loop, bumping `total_outer_iterations`, then
`advance_outer(i + 1)` (one `perf_counter` reading). -/
def outerStep (cfg : TaskConfig) (draws clock : ℕ → ℚ) (i : ℕ) (st : ExecState) :
    ExecState :=
  let st1 := st.onPM (fun pm => pm.add_message (msgOuterIter i cfg.outer_iterations))
  let st2 := st1.onStats (fun s => s.add_message (msgOuterIterStats i))
  let st3 := middle_loop cfg draws clock (i : ℤ) st2
  let st4 := st3.onStats (fun s => { s with total_outer_iterations := s.total_outer_iterations + 1 })
  { st4 with pm := st4.pm.advance_outer ((i : ℤ) + 1) (clock st4.tidx), tidx := st4.tidx + 1 }

/-- The `for i in range(config.outer_iterations)` loop of `outer_loop`,
with loop index `i` and remaining count `fuel`. -/
def outer_loop_go (cfg : TaskConfig) (draws clock : ℕ → ℚ) :
    ℕ → ℕ → ExecState → ExecState
  | _, 0, st => st
  | i, fuel + 1, st =>
    outer_loop_go cfg draws clock (i + 1) fuel (outerStep cfg draws clock i st)

/-- The preamble of `outer_loop` (tasks.py lines 114-115): the starting
activity-log line and the starting stats message. -/
def outerPrep (startStr : String) (st : ExecState) : ExecState :=
  (st.onPM (fun pm => pm.add_message ("[bold magenta]Starting outer loop execution[/bold magenta]"))).onStats
    (fun s => s.add_message (("Execution started at ") ++ startStr))

/-- Embeds `outer_loop` from tasks.py; `startStr` is the
`datetime.now().strftime(...)` text of the starting stats message and
`endStr` that of the completion message. -/
def outer_loop (cfg : TaskConfig) (draws clock : ℕ → ℚ) (startStr endStr : String)
    (st : ExecState) : ExecState :=
  let st3 := outer_loop_go cfg draws clock 0 cfg.outer_iterations.toNat (outerPrep startStr st)
  let st4 := { st3 with pm := st3.pm.complete_outer (clock st3.tidx), tidx := st3.tidx + 1 }
  let st5 := st4.onPM (fun pm => pm.add_message ("[bold green]All loops completed successfully![/bold green]"))
  st5.onStats (fun s => s.add_message (("Execution completed at ") ++ endStr))

/-- Python `f-string` formatting with spec `.2f`, used only for the final
elapsed-time stats message: render with two decimal places (round half up
on the decimal value; the exact binary-float rounding is irrelevant to
every claim, which never inspects this message). -/
def fmt2f (q : ℚ) : String :=
  let c : ℤ := ⌊q * 100 + 1 / 2⌋
  toString (c / 100) ++ (".") ++ fmt02d (c % 100)

/-- Embeds `run_tasks` from tasks.py: the two initial stats messages, the
outer loop, `get_outer_elapsed` (one `perf_counter` reading) stored into
`total_elapsed_seconds`, and the final elapsed-time stats message. -/
def run_tasks (cfg : TaskConfig) (draws clock : ℕ → ℚ) (startStr endStr : String)
    (st : ExecState) : ExecState :=
  let st2 := (st.onStats (fun s => s.add_message ("TaskFlow execution initialized"))).onStats
    (fun s => s.add_message (msgConfiguration cfg))
  let st3 := outer_loop cfg draws clock startStr endStr st2
  let st4 := { st3 with stats := { st3.stats with total_elapsed_seconds := clock st3.tidx - st3.pm.outer_start_time }, tidx := st3.tidx + 1 }
  st4.onStats (fun s => s.add_message (("Total elapsed time: ") ++ fmt2f st4.stats.total_elapsed_seconds ++ (" seconds")))

/-- The executor's starting state as set up by `cli.run` (cli.py): a fresh
`TaskStats()`, and a `ProgressManager(outer_total=outer_iterations,
inner_total=middle_iterations * inner_iterations)` whose `__aenter__` took
the first two `perf_counter` readings. -/
def initExec (cfg : TaskConfig) (clock : ℕ → ℚ) : ExecState :=
  { stats := TaskStats.init,
    pm := PMState.start cfg.outer_iterations (cfg.middle_iterations * cfg.inner_iterations) (clock 0) (clock 1),
    ridx := 0, tidx := 2 }

/-- A complete, uncancelled run as `cli.run` performs it. -/
def run_full (cfg : TaskConfig) (draws clock : ℕ → ℚ) (startStr endStr : String) :
    ExecState :=
  run_tasks cfg draws clock startStr endStr (initExec cfg clock)

/-! ### Concrete fixtures used by counterexamples and witnesses -/

/-- A small valid configuration: `outer=1, middle=1, inner=1`,
`short_circuit_probability=0`. -/
def cfgTiny : TaskConfig :=
  { outer_iterations := 1, middle_iterations := 1, inner_iterations := 1,
    short_circuit_probability := 0, sleep_min := 1 / 1000, sleep_max := 1 / 1000,
    report_path := ("report.md") }

/-- The constant-zero stream, used as concrete `draws` and `clock`. -/
def dZero : ℕ → ℚ := fun _ => 0

end Taskflow

namespace Taskflow

/-! ## Claim C1 -/

/-- C1 (counterexample): constructing a `TaskConfig` whose
`short_circuit_probability` is `2` (outside `[0, 1]`) and whose
`sleep_min = 3` exceeds `sleep_max = 1` nevertheless succeeds —
`__post_init__` never examines those fields, so construction does not fail
for this out-of-policy input. -/
theorem mkTaskConfig_accepts_out_of_policy :
    (mkTaskConfig 5 3 10 2 3 1 ("report.md")).isOk = true := by
  rfl

/-- C1 (amended): `TaskConfig` construction succeeds exactly when the three
iteration counts lie within the `LoopConfig()` bounds
(`0 ≤ outer ≤ 1000`, `0 ≤ middle ≤ 10`, `1 ≤ inner ≤ 20`); the
`short_circuit_probability`, `sleep_min` and `sleep_max` fields are not
validated, so values outside the spec's policy there never cause a
validation error. -/
theorem mkTaskConfig_isOk_iff (outer middle inner : ℤ) (p smin smax : ℚ)
    (path : String) :
    (mkTaskConfig outer middle inner p smin smax path).isOk = true ↔
      0 ≤ outer ∧ outer ≤ 1000 ∧ 0 ≤ middle ∧ middle ≤ 10 ∧
        1 ≤ inner ∧ inner ≤ 20 := by
  simp only [mkTaskConfig, loopConfig]
  split_ifs with h1 h2 h3 <;>
    simp only [Except.isOk, Except.toBool] <;>
    constructor <;> intro h <;> first | omega | rfl | simp_all

/-! ## Claim C2 -/

/-- C2 (counterexample): calling `advance_inner(step=5, total=3)` on a
freshly started progress manager does not clamp: the stored inner-bar state
afterwards has `completed = 5` and `total = 3`, so the bar shows
`completed > total`. -/
theorem advance_inner_no_clamp :
    (((PMState.start 5 30 0 0).advance_inner 5 3 1).innerTask.completed = 5) ∧
    (((PMState.start 5 30 0 0).advance_inner 5 3 1).innerTask.total = 3) ∧
    ¬ ((PMState.start 5 30 0 0).advance_inner 5 3 1).innerTask.completed ≤
        ((PMState.start 5 30 0 0).advance_inner 5 3 1).innerTask.total := by
  refine ⟨rfl, rfl, ?_⟩
  decide

/-- C2 (amended): `advance_inner(step, total)` stores its arguments
verbatim — afterwards the inner bar has `completed = step` and
`total = total`, with no clamping; consequently the displayed state
satisfies `completed ≤ total` exactly when the caller's arguments already
did. -/
theorem advance_inner_stores_arguments (pm : PMState) (step total : ℤ) (now : ℚ) :
    ((pm.advance_inner step total now).innerTask.completed = step) ∧
    ((pm.advance_inner step total now).innerTask.total = total) ∧
    ((pm.advance_inner step total now).innerTask.completed ≤
        (pm.advance_inner step total now).innerTask.total ↔ step ≤ total) := by
  exact ⟨rfl, rfl, Iff.rfl⟩

/-! ## Claim C10 -/

/-- C10: `advance_outer(step)` changes only the outer bar's task state and
the current outer-step counter — the inner bar task (hence its completed
count and total), the inner start time, the inner step counters and the
message list are all unchanged, while the outer bar's `completed` and the
outer-step counter become `step`.  Symmetrically, `reset_inner(new_total)`
leaves the outer bar task, the outer start time and the current outer step
unchanged. -/
theorem advance_outer_reset_inner_frame (pm : PMState) (step new_total : ℤ)
    (now : ℚ) :
    ((pm.advance_outer step now).innerTask = pm.innerTask ∧
     (pm.advance_outer step now).messages = pm.messages ∧
     (pm.advance_outer step now).inner_start_time = pm.inner_start_time ∧
     (pm.advance_outer step now).inner_completed_steps = pm.inner_completed_steps ∧
     (pm.advance_outer step now).outerTask.completed = step ∧
     (pm.advance_outer step now).current_outer_step = step) ∧
    ((pm.reset_inner new_total now).outerTask = pm.outerTask ∧
     (pm.reset_inner new_total now).outer_start_time = pm.outer_start_time ∧
     (pm.reset_inner new_total now).current_outer_step = pm.current_outer_step ∧
     (pm.reset_inner new_total now).messages = pm.messages) :=
  ⟨⟨rfl, rfl, rfl, rfl, rfl, rfl⟩, ⟨rfl, rfl, rfl, rfl⟩⟩

end Taskflow

namespace Taskflow

/-! ## Claim C8 -/

/-- The `02d`-formatted rendering of an integer is always at least two
characters long. -/
theorem fmt02d_two_le_length (n : ℤ) : 2 ≤ (fmt02d n).length := by
  unfold fmt02d zfill2
  split
  · rename_i h
    rw [String.length_append]
    show 2 ≤ (List.replicate (2 - (toString n).length) '0').length + (toString n).length
    rw [List.length_replicate]
    omega
  · omega

/-- C8: for every non-negative duration `d`, `format_time d` renders as
`HH:MM:SS` with each field zero-padded to at least two characters, minutes
and seconds in `[0, 59]`, and `3600 * HH + 60 * MM + SS` equal to the
integer part of `d`. -/
theorem format_time_spec (d : ℚ) (hd : 0 ≤ d) :
    ∃ h m s : ℤ, 0 ≤ h ∧ 0 ≤ m ∧ m ≤ 59 ∧ 0 ≤ s ∧ s ≤ 59 ∧
      3600 * h + 60 * m + s = ⌊d⌋ ∧
      format_time d = fmt02d h ++ (":") ++ fmt02d m ++ (":") ++ fmt02d s ∧
      2 ≤ (fmt02d h).length ∧ 2 ≤ (fmt02d m).length ∧ 2 ≤ (fmt02d s).length := by
  have ht : pyTrunc d = ⌊d⌋ := if_pos hd
  have ht0 : 0 ≤ ⌊d⌋ := Int.le_floor.mpr (by exact_mod_cast hd)
  refine ⟨pyTrunc d / 3600, pyTrunc d % 3600 / 60,
    pyTrunc d % 3600 % 60, ?_, ?_, ?_, ?_, ?_, ?_, rfl,
    fmt02d_two_le_length _, fmt02d_two_le_length _, fmt02d_two_le_length _⟩ <;>
    rw [ht] <;> omega

/-- C8 (witness): the specification applied at `d = 3725.5` seconds, whose
integer part 3725 is one hour, two minutes and five seconds. -/
theorem format_time_spec_witness :
    0 ≤ (7451 / 2 : ℚ) ∧
    (∃ h m s : ℤ, 0 ≤ h ∧ 0 ≤ m ∧ m ≤ 59 ∧ 0 ≤ s ∧ s ≤ 59 ∧
      3600 * h + 60 * m + s = ⌊(7451 / 2 : ℚ)⌋ ∧
      format_time (7451 / 2) = fmt02d h ++ (":") ++ fmt02d m ++ (":") ++ fmt02d s ∧
      2 ≤ (fmt02d h).length ∧ 2 ≤ (fmt02d m).length ∧ 2 ≤ (fmt02d s).length) :=
  ⟨by norm_num, format_time_spec (7451 / 2) (by norm_num)⟩

end Taskflow

namespace Taskflow

/-! ## Claim C9 -/

/-- A progress-manager state holding twelve messages, for exercising the
trailing-ten view. -/
def pmTwelve : PMState :=
  { PMState.start 5 30 0 0 with messages := (List.range 12).map toString }

/-- C9: the activity-log panel built by `_create_layout` shows exactly the
trailing `min 10 n` of the `n` stored messages, as a suffix (hence in
`add_message` call order), each rendered as a log row; when the store is
empty it shows the single placeholder row `"Waiting for tasks..."`. -/
theorem create_layout_activity_rows (pm : PMState) :
    (pm.messages = [] →
      (PMState.create_layout pm).activityRows = [logRowText ("Waiting for tasks...")]) ∧
    (pm.messages ≠ [] →
      ∃ tl, tl <:+ pm.messages ∧ tl.length = min 10 pm.messages.length ∧
        (PMState.create_layout pm).activityRows = tl.map logRowText) := by
  constructor
  · intro h
    simp [PMState.create_layout, recentMessages, h]
  · intro h
    refine ⟨pm.messages.drop (pm.messages.length - 10), List.drop_suffix _ _, ?_, ?_⟩
    · rw [List.length_drop]
      omega
    · simp [PMState.create_layout, recentMessages, List.isEmpty_iff, h]

/-- C9 (witness): on a freshly started manager the view is the placeholder
row, and on a twelve-message store the view is a ten-message suffix. -/
theorem create_layout_activity_rows_witness :
    ((PMState.create_layout (PMState.start 5 30 0 0)).activityRows =
      [logRowText ("Waiting for tasks...")]) ∧
    (∃ tl, tl <:+ pmTwelve.messages ∧ tl.length = min 10 pmTwelve.messages.length ∧
      (PMState.create_layout pmTwelve).activityRows = tl.map logRowText) :=
  ⟨(create_layout_activity_rows (PMState.start 5 30 0 0)).1 rfl,
   (create_layout_activity_rows pmTwelve).2 (by decide)⟩

/-! ## Claim C5 -/

/-- C5 (counterexample): in a complete run with the valid configuration
`outer=1, middle=1, inner=1, short_circuit_probability=0`, the message
`"[blue]Starting middle loop[/blue] (outer=0)"` is added to the activity
log but is absent from `TaskStats.messages` — the stats list is not an
audit trail of all logged messages. -/
theorem activity_log_message_not_in_stats :
    (("[blue]Starting middle loop[/blue] (outer=0)") ∈
      (run_full cfgTiny dZero dZero ("T0") ("T1")).pm.messages) ∧
    (("[blue]Starting middle loop[/blue] (outer=0)") ∉
      (run_full cfgTiny dZero dZero ("T0") ("T1")).stats.messages) := by
  decide

/-- C5 (amended): the two message stores are separate, each unbounded and
append-only in call order: `ProgressManager.add_message` appends to the
activity-log store (from whose full contents the display drops only older
entries — the view is a suffix of the store and always ends with the
newest message), and `TaskStats.add_message` appends to `stats.messages`;
messages sent only to the activity log are not copied into
`RunStats.messages`. -/
theorem message_stores_append (pm : PMState) (s : TaskStats) (m : String) :
    ((pm.add_message m).messages = pm.messages ++ [m]) ∧
    ((TaskStats.add_message s m).messages = s.messages ++ [m]) ∧
    (recentMessages (pm.add_message m).messages <:+ (pm.add_message m).messages) ∧
    ((recentMessages (pm.add_message m).messages).getLast? = some m) := by
  refine ⟨rfl, rfl, ?_, ?_⟩
  · have hne : (pm.messages ++ [m]).isEmpty = false := by
      simp [List.isEmpty_iff]
    show recentMessages (pm.messages ++ [m]) <:+ pm.messages ++ [m]
    rw [recentMessages, hne]
    simp only [Bool.false_eq_true, if_false]
    exact List.drop_suffix _ _
  · have hne : (pm.messages ++ [m]).isEmpty = false := by
      simp [List.isEmpty_iff]
    show (recentMessages (pm.messages ++ [m])).getLast? = some m
    rw [recentMessages, hne]
    simp only [Bool.false_eq_true, if_false]
    rw [List.drop_append_eq_append_drop]
    have h1 : (pm.messages ++ [m]).length - 10 - pm.messages.length = 0 := by
      rw [List.length_append, List.length_singleton]
      omega
    rw [h1]
    simp [List.getLast?_concat]

end Taskflow

namespace Taskflow

/-! ## Inner-loop induction lemmas -/

/-- Frame facts for the short-circuit arm of the inner-loop body:
`short_circuit_count` is bumped by one; the other three statistics and the
`advance_inner` call log are unchanged. -/
theorem innerShortCircuitStep_frame (o m : ℤ) (i : ℕ) (st : ExecState) :
    (innerShortCircuitStep o m i st).stats.total_outer_iterations = st.stats.total_outer_iterations ∧
    (innerShortCircuitStep o m i st).stats.total_middle_iterations = st.stats.total_middle_iterations ∧
    (innerShortCircuitStep o m i st).stats.total_inner_iterations = st.stats.total_inner_iterations ∧
    (innerShortCircuitStep o m i st).stats.short_circuit_count = st.stats.short_circuit_count + 1 ∧
    (innerShortCircuitStep o m i st).pm.advance_inner_calls = st.pm.advance_inner_calls :=
  ⟨rfl, rfl, rfl, rfl, rfl⟩

/-- Frame facts for the work arm of the inner-loop body:
`total_inner_iterations` is bumped by one; the other three statistics and
the `advance_inner` call log are unchanged. -/
theorem innerWorkStep_frame (cfg : TaskConfig) (o m : ℤ) (i : ℕ) (st : ExecState) :
    (innerWorkStep cfg o m i st).stats.total_outer_iterations = st.stats.total_outer_iterations ∧
    (innerWorkStep cfg o m i st).stats.total_middle_iterations = st.stats.total_middle_iterations ∧
    (innerWorkStep cfg o m i st).stats.total_inner_iterations = st.stats.total_inner_iterations + 1 ∧
    (innerWorkStep cfg o m i st).stats.short_circuit_count = st.stats.short_circuit_count ∧
    (innerWorkStep cfg o m i st).pm.advance_inner_calls = st.pm.advance_inner_calls := by
  dsimp only [innerWorkStep, ExecState.consumeDraw, ExecState.onStats, ExecState.onPM]
  split_ifs <;> exact ⟨rfl, rfl, rfl, rfl, rfl⟩

/-- Master specification of the inner-loop recursion along its reachable
configurations (where the `completed` accumulator equals the loop index):
the result lies in `[i, i + fuel]`; the outer and middle statistics and
the `advance_inner` call log are untouched; `total_inner_iterations` grows
by exactly the number of newly completed steps; and either no short
circuit fired and the loop ran to the end (`result = i + fuel`), or
exactly one fired and the result falls short of `i + fuel`. -/
theorem inner_loop_go_spec (cfg : TaskConfig) (draws : ℕ → ℚ) (o m : ℤ) :
    ∀ fuel i st,
      i ≤ (inner_loop_go cfg draws o m i fuel i st).2 ∧
      (inner_loop_go cfg draws o m i fuel i st).2 ≤ i + fuel ∧
      (inner_loop_go cfg draws o m i fuel i st).1.stats.total_outer_iterations
        = st.stats.total_outer_iterations ∧
      (inner_loop_go cfg draws o m i fuel i st).1.stats.total_middle_iterations
        = st.stats.total_middle_iterations ∧
      (inner_loop_go cfg draws o m i fuel i st).1.stats.total_inner_iterations
        = st.stats.total_inner_iterations + ((inner_loop_go cfg draws o m i fuel i st).2 : ℤ) - (i : ℤ) ∧
      (inner_loop_go cfg draws o m i fuel i st).1.pm.advance_inner_calls
        = st.pm.advance_inner_calls ∧
      ((inner_loop_go cfg draws o m i fuel i st).1.stats.short_circuit_count
          = st.stats.short_circuit_count ∧
        (inner_loop_go cfg draws o m i fuel i st).2 = i + fuel ∨
       (inner_loop_go cfg draws o m i fuel i st).1.stats.short_circuit_count
          = st.stats.short_circuit_count + 1 ∧
        (inner_loop_go cfg draws o m i fuel i st).2 < i + fuel) := by
  intro fuel
  induction fuel with
  | zero =>
    intro i st
    rw [inner_loop_go]
    dsimp only
    exact ⟨le_refl i, by omega, rfl, rfl, by omega, rfl, Or.inl ⟨rfl, by omega⟩⟩
  | succ fuel ih =>
    intro i st
    rw [inner_loop_go]
    by_cases hc : 0 < i ∧ draws st.ridx < cfg.short_circuit_probability
    · rw [if_pos hc]
      obtain ⟨f1, f2, f3, f4, f5⟩ := innerShortCircuitStep_frame o m i st
      dsimp only
      exact ⟨le_refl i, by omega, f1, f2, by rw [f3]; omega, f5, Or.inr ⟨f4, by omega⟩⟩
    · rw [if_neg hc]
      obtain ⟨g1, g2, g3, g4, g5⟩ := innerWorkStep_frame cfg o m i st
      obtain ⟨h1, h2, h3, h4, h5, h6, h7⟩ := ih (i + 1) (innerWorkStep cfg o m i st)
      refine ⟨by omega, by omega, by rw [h3, g1], by rw [h4, g2],
        by rw [h5, g3]; push_cast; ring, by rw [h6, g5], ?_⟩
      rcases h7 with ⟨hs, hr⟩ | ⟨hs, hr⟩
      · exact Or.inl ⟨by rw [hs, g4], by omega⟩
      · exact Or.inr ⟨by rw [hs, g4], by omega⟩

end Taskflow

namespace Taskflow

/-- Unfolding `inner_loop` to the recursion it starts (at index 0 with an
empty accumulator, after the starting log line). -/
theorem inner_loop_eq (cfg : TaskConfig) (draws : ℕ → ℚ) (o m : ℤ) (st : ExecState) :
    inner_loop cfg draws o m st
      = inner_loop_go cfg draws o m 0 cfg.inner_iterations.toNat 0
          (st.onPM fun pm => pm.add_message (msgInnerStart o m)) :=
  rfl

/-- The starting log line of the inner loop changes no statistic and not
the `advance_inner` call log. -/
theorem inner_loop_start_frame (o m : ℤ) (st : ExecState) :
    (st.onPM fun pm => pm.add_message (msgInnerStart o m)).stats = st.stats ∧
    (st.onPM fun pm => pm.add_message (msgInnerStart o m)).pm.advance_inner_calls
      = st.pm.advance_inner_calls :=
  ⟨rfl, rfl⟩

/-- Frame corollary for a whole `inner_loop` call, for any configuration:
the result is at most `inner_iterations` (as a natural count), and the
outer/middle statistics and the `advance_inner` call log are unchanged. -/
theorem inner_loop_frame (cfg : TaskConfig) (draws : ℕ → ℚ) (o m : ℤ) (st : ExecState) :
    (inner_loop cfg draws o m st).2 ≤ cfg.inner_iterations.toNat ∧
    (inner_loop cfg draws o m st).1.stats.total_outer_iterations = st.stats.total_outer_iterations ∧
    (inner_loop cfg draws o m st).1.stats.total_middle_iterations = st.stats.total_middle_iterations ∧
    (inner_loop cfg draws o m st).1.pm.advance_inner_calls = st.pm.advance_inner_calls := by
  obtain ⟨e1, e2⟩ := inner_loop_start_frame o m st
  obtain ⟨h1, h2, h3, h4, h5, h6, h7⟩ := inner_loop_go_spec cfg draws o m
    cfg.inner_iterations.toNat 0 (st.onPM fun pm => pm.add_message (msgInnerStart o m))
  rw [inner_loop_eq]
  rw [e1] at h3 h4
  rw [e2] at h6
  exact ⟨by omega, h3, h4, h6⟩

/-! ## Claim C4 -/

/-- C4: for every configuration with `inner_iterations ≥ 1` and every
random-draw sequence, the inner loop executes at least its first step
(`total_inner_iterations` grows by at least one, so it never
short-circuits at `k = 0`), returns a completed count in
`[1, inner_iterations]`, and returns exactly `inner_iterations` if and
only if no short-circuit fired in that loop (i.e. `short_circuit_count`
is unchanged). -/
theorem inner_loop_completed_spec (cfg : TaskConfig) (draws : ℕ → ℚ) (o m : ℤ)
    (st : ExecState) (h : 1 ≤ cfg.inner_iterations) :
    1 ≤ (inner_loop cfg draws o m st).2 ∧
    ((inner_loop cfg draws o m st).2 : ℤ) ≤ cfg.inner_iterations ∧
    (((inner_loop cfg draws o m st).2 : ℤ) = cfg.inner_iterations ↔
      (inner_loop cfg draws o m st).1.stats.short_circuit_count
        = st.stats.short_circuit_count) ∧
    st.stats.total_inner_iterations + 1
      ≤ (inner_loop cfg draws o m st).1.stats.total_inner_iterations := by
  obtain ⟨k, hk⟩ : ∃ k, cfg.inner_iterations.toNat = k + 1 :=
    ⟨cfg.inner_iterations.toNat - 1, by omega⟩
  obtain ⟨e1, e2⟩ := inner_loop_start_frame o m st
  have hun : inner_loop cfg draws o m st
      = inner_loop_go cfg draws o m 1 k 1
          (innerWorkStep cfg o m 0 (st.onPM fun pm => pm.add_message (msgInnerStart o m))) := by
    rw [inner_loop_eq, hk, inner_loop_go, if_neg (by simp)]
  obtain ⟨g1, g2, g3, g4, g5⟩ :=
    innerWorkStep_frame cfg o m 0 (st.onPM fun pm => pm.add_message (msgInnerStart o m))
  rw [e1] at g3 g4
  obtain ⟨h1, h2, h3, h4, h5, h6, h7⟩ := inner_loop_go_spec cfg draws o m k 1
    (innerWorkStep cfg o m 0 (st.onPM fun pm => pm.add_message (msgInnerStart o m)))
  rw [hun]
  refine ⟨h1, by omega, ?_, by rw [h5, g3]; omega⟩
  rcases h7 with ⟨hs, hr⟩ | ⟨hs, hr⟩
  · rw [hs, g4]
    constructor <;> intro _ <;> omega
  · rw [hs, g4]
    constructor <;> intro hx <;> omega

/-- C4 (witness): the specification applied to the configuration
`outer=1, middle=1, inner=1` with the constant-zero streams, starting from
the initial state of a run. -/
theorem inner_loop_completed_spec_witness :
    1 ≤ (inner_loop cfgTiny dZero 0 0 (initExec cfgTiny dZero)).2 ∧
    ((inner_loop cfgTiny dZero 0 0 (initExec cfgTiny dZero)).2 : ℤ) ≤ cfgTiny.inner_iterations ∧
    (((inner_loop cfgTiny dZero 0 0 (initExec cfgTiny dZero)).2 : ℤ) = cfgTiny.inner_iterations ↔
      (inner_loop cfgTiny dZero 0 0 (initExec cfgTiny dZero)).1.stats.short_circuit_count
        = (initExec cfgTiny dZero).stats.short_circuit_count) ∧
    (initExec cfgTiny dZero).stats.total_inner_iterations + 1
      ≤ (inner_loop cfgTiny dZero 0 0 (initExec cfgTiny dZero)).1.stats.total_inner_iterations :=
  inner_loop_completed_spec cfgTiny dZero 0 0 (initExec cfgTiny dZero) (by norm_num [cfgTiny])

end Taskflow

namespace Taskflow

/-! ## Middle- and outer-loop lemmas -/

/-- The per-call property of C3: a recorded `advance_inner(step, total)`
call has `step ≤ total` and `total` equal to the precomputed
`total_inner_steps`. -/
def callOK (tis : ℤ) (e : ℤ × ℤ) : Bool :=
  decide (e.1 ≤ e.2 ∧ e.2 = tis)

/-- One middle-loop iteration: the new cumulative count grows by the inner
loop's result `r ≤ inner_iterations.toNat`, `total_middle_iterations` is
bumped by one, `total_outer_iterations` is unchanged, and exactly one
`advance_inner` call — with arguments `(cum + r, tis)` — is recorded. -/
theorem middleStep_spec (cfg : TaskConfig) (draws clock : ℕ → ℚ) (o tis : ℤ)
    (j cum : ℕ) (st : ExecState) :
    ∃ r, r ≤ cfg.inner_iterations.toNat ∧
      (middleStep cfg draws clock o tis j cum st).2 = cum + r ∧
      (middleStep cfg draws clock o tis j cum st).1.stats.total_middle_iterations
        = st.stats.total_middle_iterations + 1 ∧
      (middleStep cfg draws clock o tis j cum st).1.stats.total_outer_iterations
        = st.stats.total_outer_iterations ∧
      (middleStep cfg draws clock o tis j cum st).1.pm.advance_inner_calls
        = st.pm.advance_inner_calls ++ [(((cum + r : ℕ) : ℤ), tis)] := by
  obtain ⟨i1, i2, i3, i4⟩ := inner_loop_frame cfg draws o (j : ℤ)
    (st.onPM fun pm => pm.add_message (msgMiddleIter j cfg.middle_iterations o))
  refine ⟨(inner_loop cfg draws o (j : ℤ)
      (st.onPM fun pm => pm.add_message (msgMiddleIter j cfg.middle_iterations o))).2,
    i1, rfl, ?_, ?_, ?_⟩
  · show (inner_loop cfg draws o (j : ℤ)
        (st.onPM fun pm => pm.add_message (msgMiddleIter j cfg.middle_iterations o))).1.stats.total_middle_iterations + 1
      = st.stats.total_middle_iterations + 1
    rw [i3]
    rfl
  · show (inner_loop cfg draws o (j : ℤ)
        (st.onPM fun pm => pm.add_message (msgMiddleIter j cfg.middle_iterations o))).1.stats.total_outer_iterations
      = st.stats.total_outer_iterations
    rw [i2]
    rfl
  · show (inner_loop cfg draws o (j : ℤ)
        (st.onPM fun pm => pm.add_message (msgMiddleIter j cfg.middle_iterations o))).1.pm.advance_inner_calls
        ++ [(((cum + _ : ℕ) : ℤ), tis)]
      = st.pm.advance_inner_calls ++ [(((cum + _ : ℕ) : ℤ), tis)]
    rw [i4]
    rfl

/-- Along the middle loop, if the cumulative count can still absorb
`fuel` further full inner loops within `tis`, every `advance_inner` call
recorded from here on satisfies `callOK tis`. -/
theorem middle_loop_go_calls (cfg : TaskConfig) (draws clock : ℕ → ℚ) (o tis : ℤ) :
    ∀ (fuel : ℕ) (j cum : ℕ) (st : ExecState),
      (cum : ℤ) + (fuel : ℤ) * (cfg.inner_iterations.toNat : ℤ) ≤ tis →
      st.pm.advance_inner_calls.all (callOK tis) = true →
      (middle_loop_go cfg draws clock o tis j fuel cum st).1.pm.advance_inner_calls.all
        (callOK tis) = true := by
  intro fuel
  induction fuel with
  | zero =>
    intro j cum st _ h2
    rw [middle_loop_go]
    exact h2
  | succ fuel ih =>
    intro j cum st h1 h2
    rw [middle_loop_go]
    obtain ⟨r, hr, hcum, hm, ho2, htr⟩ := middleStep_spec cfg draws clock o tis j cum st
    have hX : (0 : ℤ) ≤ (cfg.inner_iterations.toNat : ℤ) := Int.natCast_nonneg _
    have hfx : (0 : ℤ) ≤ (fuel : ℤ) * (cfg.inner_iterations.toNat : ℤ) :=
      mul_nonneg (Int.natCast_nonneg _) hX
    have hexp : ((fuel + 1 : ℕ) : ℤ) * (cfg.inner_iterations.toNat : ℤ)
        = (fuel : ℤ) * (cfg.inner_iterations.toNat : ℤ) + (cfg.inner_iterations.toNat : ℤ) := by
      push_cast
      ring
    have hrX : (r : ℤ) ≤ (cfg.inner_iterations.toNat : ℤ) := by exact_mod_cast hr
    have hcr : ((cum + r : ℕ) : ℤ) = (cum : ℤ) + (r : ℤ) := by push_cast; ring
    have hok : ((cum + r : ℕ) : ℤ) ≤ tis := by rw [hcr]; linarith
    apply ih (j + 1) (middleStep cfg draws clock o tis j cum st).2
      (middleStep cfg draws clock o tis j cum st).1
    · rw [hcum, hcr]
      linarith
    · rw [htr, List.all_append, h2]
      simp only [callOK, Bool.true_and, List.all_cons, List.all_nil, Bool.and_true,
        decide_eq_true_eq]
      exact ⟨by omega, trivial⟩

/-- The `advance_inner` calls recorded by a whole `middle_loop` are those
of its inner recursion started from the prepared state (the preamble,
`complete_inner` and the log lines record none). -/
theorem middle_loop_calls_eq (cfg : TaskConfig) (draws clock : ℕ → ℚ) (o : ℤ)
    (st : ExecState) :
    (middle_loop cfg draws clock o st).pm.advance_inner_calls
      = (middle_loop_go cfg draws clock o (cfg.middle_iterations * cfg.inner_iterations) 0
          cfg.middle_iterations.toNat 0 (middlePrep cfg clock o st)).1.pm.advance_inner_calls :=
  rfl

/-- The middle-loop preamble records no `advance_inner` call and changes
no statistic. -/
theorem middlePrep_frame (cfg : TaskConfig) (clock : ℕ → ℚ) (o : ℤ) (st : ExecState) :
    (middlePrep cfg clock o st).pm.advance_inner_calls = st.pm.advance_inner_calls ∧
    (middlePrep cfg clock o st).stats = st.stats :=
  ⟨rfl, rfl⟩

end Taskflow

namespace Taskflow

/-! ## Claim C3 -/

/-- C3: with a valid configuration (`inner_iterations ≥ 1`,
`middle_iterations ≥ 0`) and any random-draw and clock sequences, every
`advance_inner` call issued during a `middle_loop` run (started with an
empty call log) passes a cumulative completed count that is at most the
precomputed total `middle_iterations * inner_iterations`, which is exactly
the `total` argument of every call — `advance_inner` is never invoked with
`completed > total`. -/
theorem middle_loop_advance_inner_calls_ok (cfg : TaskConfig) (draws clock : ℕ → ℚ)
    (o : ℤ) (st : ExecState) (hm : 0 ≤ cfg.middle_iterations)
    (hi : 1 ≤ cfg.inner_iterations) (h0 : st.pm.advance_inner_calls = []) :
    (middle_loop cfg draws clock o st).pm.advance_inner_calls.all
      (callOK (cfg.middle_iterations * cfg.inner_iterations)) = true := by
  rw [middle_loop_calls_eq]
  apply middle_loop_go_calls
  · have h1 : (cfg.middle_iterations.toNat : ℤ) = cfg.middle_iterations :=
      Int.toNat_of_nonneg hm
    have h2 : (cfg.inner_iterations.toNat : ℤ) = cfg.inner_iterations :=
      Int.toNat_of_nonneg (by omega)
    rw [h1, h2]
    simp
  · rw [(middlePrep_frame cfg clock o st).1, h0]
    rfl

/-- C3 (witness): the call-log property evaluated on a concrete
`middle_loop` run of the `outer=1, middle=1, inner=1` configuration from
the initial state of a run (whose call log is empty). -/
theorem middle_loop_advance_inner_calls_ok_witness :
    (0 ≤ cfgTiny.middle_iterations) ∧ (1 ≤ cfgTiny.inner_iterations) ∧
    ((initExec cfgTiny dZero).pm.advance_inner_calls = []) ∧
    (middle_loop cfgTiny dZero dZero 0 (initExec cfgTiny dZero)).pm.advance_inner_calls.all
      (callOK (cfgTiny.middle_iterations * cfgTiny.inner_iterations)) = true :=
  ⟨by norm_num [cfgTiny], by norm_num [cfgTiny], rfl,
    middle_loop_advance_inner_calls_ok cfgTiny dZero dZero 0 (initExec cfgTiny dZero)
      (by norm_num [cfgTiny]) (by norm_num [cfgTiny]) rfl⟩

/-! ## Counting lemmas for the full run -/

/-- Along the middle loop, `total_middle_iterations` grows by exactly the
number of iterations and `total_outer_iterations` is unchanged. -/
theorem middle_loop_go_counts (cfg : TaskConfig) (draws clock : ℕ → ℚ) (o tis : ℤ) :
    ∀ (fuel : ℕ) (j cum : ℕ) (st : ExecState),
      (middle_loop_go cfg draws clock o tis j fuel cum st).1.stats.total_middle_iterations
        = st.stats.total_middle_iterations + (fuel : ℤ) ∧
      (middle_loop_go cfg draws clock o tis j fuel cum st).1.stats.total_outer_iterations
        = st.stats.total_outer_iterations := by
  intro fuel
  induction fuel with
  | zero =>
    intro j cum st
    rw [middle_loop_go]
    dsimp only
    exact ⟨by omega, rfl⟩
  | succ fuel ih =>
    intro j cum st
    rw [middle_loop_go]
    obtain ⟨r, hr, hcum, hm, ho2, htr⟩ := middleStep_spec cfg draws clock o tis j cum st
    obtain ⟨m1, m2⟩ := ih (j + 1) (middleStep cfg draws clock o tis j cum st).2
      (middleStep cfg draws clock o tis j cum st).1
    constructor
    · rw [m1, hm]
      push_cast
      ring
    · rw [m2, ho2]

/-- A whole `middle_loop` adds `middle_iterations.toNat` to
`total_middle_iterations` and leaves `total_outer_iterations` unchanged. -/
theorem middle_loop_counts (cfg : TaskConfig) (draws clock : ℕ → ℚ) (o : ℤ)
    (st : ExecState) :
    (middle_loop cfg draws clock o st).stats.total_middle_iterations
      = st.stats.total_middle_iterations + (cfg.middle_iterations.toNat : ℤ) ∧
    (middle_loop cfg draws clock o st).stats.total_outer_iterations
      = st.stats.total_outer_iterations := by
  have e : (middle_loop cfg draws clock o st).stats
      = (middle_loop_go cfg draws clock o (cfg.middle_iterations * cfg.inner_iterations) 0
          cfg.middle_iterations.toNat 0 (middlePrep cfg clock o st)).1.stats := rfl
  obtain ⟨m1, m2⟩ := middle_loop_go_counts cfg draws clock o
    (cfg.middle_iterations * cfg.inner_iterations) cfg.middle_iterations.toNat 0 0
    (middlePrep cfg clock o st)
  rw [e, m1, m2, (middlePrep_frame cfg clock o st).2]
  exact ⟨rfl, rfl⟩

/-- One outer-loop iteration bumps `total_outer_iterations` by one and
`total_middle_iterations` by `middle_iterations.toNat`. -/
theorem outerStep_counts (cfg : TaskConfig) (draws clock : ℕ → ℚ) (i : ℕ)
    (st : ExecState) :
    (outerStep cfg draws clock i st).stats.total_outer_iterations
      = st.stats.total_outer_iterations + 1 ∧
    (outerStep cfg draws clock i st).stats.total_middle_iterations
      = st.stats.total_middle_iterations + (cfg.middle_iterations.toNat : ℤ) := by
  obtain ⟨m1, m2⟩ := middle_loop_counts cfg draws clock (i : ℤ)
    (((st.onPM fun pm => pm.add_message (msgOuterIter i cfg.outer_iterations)).onStats
      fun s => s.add_message (msgOuterIterStats i)))
  constructor
  · show (middle_loop cfg draws clock (i : ℤ)
        (((st.onPM fun pm => pm.add_message (msgOuterIter i cfg.outer_iterations)).onStats
          fun s => s.add_message (msgOuterIterStats i)))).stats.total_outer_iterations + 1
      = st.stats.total_outer_iterations + 1
    rw [m2]
    rfl
  · show (middle_loop cfg draws clock (i : ℤ)
        (((st.onPM fun pm => pm.add_message (msgOuterIter i cfg.outer_iterations)).onStats
          fun s => s.add_message (msgOuterIterStats i)))).stats.total_middle_iterations
      = st.stats.total_middle_iterations + (cfg.middle_iterations.toNat : ℤ)
    rw [m1]
    rfl

/-- Along the outer loop, `total_outer_iterations` grows by the number of
iterations and `total_middle_iterations` by that number times
`middle_iterations.toNat`. -/
theorem outer_loop_go_counts (cfg : TaskConfig) (draws clock : ℕ → ℚ) :
    ∀ (fuel : ℕ) (i : ℕ) (st : ExecState),
      (outer_loop_go cfg draws clock i fuel st).stats.total_outer_iterations
        = st.stats.total_outer_iterations + (fuel : ℤ) ∧
      (outer_loop_go cfg draws clock i fuel st).stats.total_middle_iterations
        = st.stats.total_middle_iterations
            + (fuel : ℤ) * (cfg.middle_iterations.toNat : ℤ) := by
  intro fuel
  induction fuel with
  | zero =>
    intro i st
    rw [outer_loop_go]
    exact ⟨by omega, by push_cast; ring⟩
  | succ fuel ih =>
    intro i st
    rw [outer_loop_go]
    obtain ⟨s1, s2⟩ := outerStep_counts cfg draws clock i st
    obtain ⟨o1, o2⟩ := ih (i + 1) (outerStep cfg draws clock i st)
    constructor
    · rw [o1, s1]
      push_cast
      ring
    · rw [o2, s2]
      push_cast
      ring

end Taskflow

namespace Taskflow

/-- The state reaching the outer-loop recursion in a full run: the initial
state after the two `run_tasks` stats messages and the `outer_loop`
preamble. -/
def runStart (cfg : TaskConfig) (clock : ℕ → ℚ) (startStr : String) : ExecState :=
  outerPrep startStr
    (((initExec cfg clock).onStats (fun s => s.add_message ("TaskFlow execution initialized"))).onStats
      (fun s => s.add_message (msgConfiguration cfg)))

/-- In a full run, each statistics counter of the final state is that of
the outer-loop recursion started from `runStart` (the epilogue after the
loop touches only messages and the elapsed time). -/
theorem run_full_counts_eq (cfg : TaskConfig) (draws clock : ℕ → ℚ) (s e : String) :
    ((run_full cfg draws clock s e).stats.total_outer_iterations
      = (outer_loop_go cfg draws clock 0 cfg.outer_iterations.toNat
          (runStart cfg clock s)).stats.total_outer_iterations) ∧
    ((run_full cfg draws clock s e).stats.total_middle_iterations
      = (outer_loop_go cfg draws clock 0 cfg.outer_iterations.toNat
          (runStart cfg clock s)).stats.total_middle_iterations) ∧
    ((run_full cfg draws clock s e).stats.total_inner_iterations
      = (outer_loop_go cfg draws clock 0 cfg.outer_iterations.toNat
          (runStart cfg clock s)).stats.total_inner_iterations) ∧
    ((run_full cfg draws clock s e).stats.short_circuit_count
      = (outer_loop_go cfg draws clock 0 cfg.outer_iterations.toNat
          (runStart cfg clock s)).stats.short_circuit_count) :=
  ⟨rfl, rfl, rfl, rfl⟩

/-- All four statistics counters are zero at `runStart` (the preamble adds
only messages to a fresh `TaskStats()`). -/
theorem runStart_counts (cfg : TaskConfig) (clock : ℕ → ℚ) (s : String) :
    (runStart cfg clock s).stats.total_outer_iterations = 0 ∧
    (runStart cfg clock s).stats.total_middle_iterations = 0 ∧
    (runStart cfg clock s).stats.total_inner_iterations = 0 ∧
    (runStart cfg clock s).stats.short_circuit_count = 0 :=
  ⟨rfl, rfl, rfl, rfl⟩

/-! ## Claim C6 -/

/-- C6: for every configuration with non-negative outer and middle
iteration counts (as every validated `TaskConfig` has) and every
random-draw and clock sequence, after a complete uncancelled run
`stats.total_outer_iterations = outer_iterations` and
`stats.total_middle_iterations = outer_iterations * middle_iterations`. -/
theorem run_full_totals (cfg : TaskConfig) (draws clock : ℕ → ℚ) (s e : String)
    (ho : 0 ≤ cfg.outer_iterations) (hm : 0 ≤ cfg.middle_iterations) :
    (run_full cfg draws clock s e).stats.total_outer_iterations = cfg.outer_iterations ∧
    (run_full cfg draws clock s e).stats.total_middle_iterations
      = cfg.outer_iterations * cfg.middle_iterations := by
  obtain ⟨e1, e2, _, _⟩ := run_full_counts_eq cfg draws clock s e
  obtain ⟨g1, g2⟩ := outer_loop_go_counts cfg draws clock cfg.outer_iterations.toNat 0
    (runStart cfg clock s)
  obtain ⟨z1, z2, _, _⟩ := runStart_counts cfg clock s
  constructor
  · rw [e1, g1, z1, Int.toNat_of_nonneg ho]
    ring
  · rw [e2, g2, z2, Int.toNat_of_nonneg ho, Int.toNat_of_nonneg hm]
    ring

/-- C6 (witness): the totals theorem applied to the concrete configuration
`outer=1, middle=1, inner=1` with constant-zero streams. -/
theorem run_full_totals_witness :
    (0 ≤ cfgTiny.outer_iterations) ∧ (0 ≤ cfgTiny.middle_iterations) ∧
    (run_full cfgTiny dZero dZero ("T0") ("T1")).stats.total_outer_iterations
      = cfgTiny.outer_iterations ∧
    (run_full cfgTiny dZero dZero ("T0") ("T1")).stats.total_middle_iterations
      = cfgTiny.outer_iterations * cfgTiny.middle_iterations :=
  ⟨by norm_num [cfgTiny], by norm_num [cfgTiny],
    (run_full_totals cfgTiny dZero dZero ("T0") ("T1")
      (by norm_num [cfgTiny]) (by norm_num [cfgTiny])).1,
    (run_full_totals cfgTiny dZero dZero ("T0") ("T1")
      (by norm_num [cfgTiny]) (by norm_num [cfgTiny])).2⟩

end Taskflow

namespace Taskflow

/-! ## Probability-one lemmas (claim C7) -/

/-- With `short_circuit_probability = 1` and `inner_iterations = 5`, and
any draw sequence bounded below 1 (as `random.random()` always is), the
inner loop completes exactly the guaranteed first step and then
short-circuits at `i = 1`: it returns 1, bumps `short_circuit_count` and
`total_inner_iterations` by one each, and leaves the other counters
unchanged. -/
theorem inner_loop_prob_one (cfg : TaskConfig) (draws : ℕ → ℚ) (o m : ℤ)
    (st : ExecState) (hp : cfg.short_circuit_probability = 1)
    (hn : cfg.inner_iterations = 5) (hd : ∀ x, draws x < 1) :
    (inner_loop cfg draws o m st).2 = 1 ∧
    (inner_loop cfg draws o m st).1.stats.short_circuit_count
      = st.stats.short_circuit_count + 1 ∧
    (inner_loop cfg draws o m st).1.stats.total_inner_iterations
      = st.stats.total_inner_iterations + 1 ∧
    (inner_loop cfg draws o m st).1.stats.total_middle_iterations
      = st.stats.total_middle_iterations ∧
    (inner_loop cfg draws o m st).1.stats.total_outer_iterations
      = st.stats.total_outer_iterations := by
  have hk : cfg.inner_iterations.toNat = 4 + 1 := by rw [hn]; rfl
  have hun : inner_loop cfg draws o m st
      = inner_loop_go cfg draws o m 1 4 1
          (innerWorkStep cfg o m 0 (st.onPM fun pm => pm.add_message (msgInnerStart o m))) := by
    rw [inner_loop_eq, hk, inner_loop_go, if_neg (by simp)]
  have h4 : (4 : ℕ) = 3 + 1 := rfl
  have hstep : inner_loop_go cfg draws o m 1 4 1
        (innerWorkStep cfg o m 0 (st.onPM fun pm => pm.add_message (msgInnerStart o m)))
      = (innerShortCircuitStep o m 1
          (innerWorkStep cfg o m 0 (st.onPM fun pm => pm.add_message (msgInnerStart o m))), 1) := by
    rw [h4, inner_loop_go, if_pos]
    exact ⟨by norm_num, by rw [hp]; exact hd _⟩
  obtain ⟨f1, f2, f3, f4, f5⟩ := innerShortCircuitStep_frame o m 1
    (innerWorkStep cfg o m 0 (st.onPM fun pm => pm.add_message (msgInnerStart o m)))
  obtain ⟨g1, g2, g3, g4, g5⟩ := innerWorkStep_frame cfg o m 0
    (st.onPM fun pm => pm.add_message (msgInnerStart o m))
  rw [hun, hstep]
  dsimp only
  refine ⟨rfl, ?_, ?_, ?_, ?_⟩
  · rw [f4, g4]
    rfl
  · rw [f3, g3]
    rfl
  · rw [f2, g2]
    rfl
  · rw [f1, g1]
    rfl

/-- One middle-loop iteration under probability one: the cumulative count
grows by exactly one, and `short_circuit_count`, `total_inner_iterations`
and `total_middle_iterations` are each bumped by one. -/
theorem middleStep_prob_one (cfg : TaskConfig) (draws clock : ℕ → ℚ) (o tis : ℤ)
    (j cum : ℕ) (st : ExecState) (hp : cfg.short_circuit_probability = 1)
    (hn : cfg.inner_iterations = 5) (hd : ∀ x, draws x < 1) :
    (middleStep cfg draws clock o tis j cum st).2 = cum + 1 ∧
    (middleStep cfg draws clock o tis j cum st).1.stats.short_circuit_count
      = st.stats.short_circuit_count + 1 ∧
    (middleStep cfg draws clock o tis j cum st).1.stats.total_inner_iterations
      = st.stats.total_inner_iterations + 1 ∧
    (middleStep cfg draws clock o tis j cum st).1.stats.total_middle_iterations
      = st.stats.total_middle_iterations + 1 ∧
    (middleStep cfg draws clock o tis j cum st).1.stats.total_outer_iterations
      = st.stats.total_outer_iterations := by
  obtain ⟨p1, p2, p3, p4, p5⟩ := inner_loop_prob_one cfg draws o (j : ℤ)
    (st.onPM fun pm => pm.add_message (msgMiddleIter j cfg.middle_iterations o)) hp hn hd
  refine ⟨?_, ?_, ?_, ?_, ?_⟩
  · show cum + (inner_loop cfg draws o (j : ℤ)
        (st.onPM fun pm => pm.add_message (msgMiddleIter j cfg.middle_iterations o))).2 = cum + 1
    rw [p1]
  · show (inner_loop cfg draws o (j : ℤ)
        (st.onPM fun pm => pm.add_message (msgMiddleIter j cfg.middle_iterations o))).1.stats.short_circuit_count
      = st.stats.short_circuit_count + 1
    rw [p2]
    rfl
  · show (inner_loop cfg draws o (j : ℤ)
        (st.onPM fun pm => pm.add_message (msgMiddleIter j cfg.middle_iterations o))).1.stats.total_inner_iterations
      = st.stats.total_inner_iterations + 1
    rw [p3]
    rfl
  · show (inner_loop cfg draws o (j : ℤ)
        (st.onPM fun pm => pm.add_message (msgMiddleIter j cfg.middle_iterations o))).1.stats.total_middle_iterations + 1
      = st.stats.total_middle_iterations + 1
    rw [p4]
    rfl
  · show (inner_loop cfg draws o (j : ℤ)
        (st.onPM fun pm => pm.add_message (msgMiddleIter j cfg.middle_iterations o))).1.stats.total_outer_iterations
      = st.stats.total_outer_iterations
    rw [p5]
    rfl

/-- Along the middle loop under probability one, every counter except the
outer one grows by exactly the number of iterations. -/
theorem middle_loop_go_prob_one (cfg : TaskConfig) (draws clock : ℕ → ℚ) (o tis : ℤ)
    (hp : cfg.short_circuit_probability = 1) (hn : cfg.inner_iterations = 5)
    (hd : ∀ x, draws x < 1) :
    ∀ (fuel : ℕ) (j cum : ℕ) (st : ExecState),
      (middle_loop_go cfg draws clock o tis j fuel cum st).1.stats.short_circuit_count
        = st.stats.short_circuit_count + (fuel : ℤ) ∧
      (middle_loop_go cfg draws clock o tis j fuel cum st).1.stats.total_inner_iterations
        = st.stats.total_inner_iterations + (fuel : ℤ) ∧
      (middle_loop_go cfg draws clock o tis j fuel cum st).1.stats.total_middle_iterations
        = st.stats.total_middle_iterations + (fuel : ℤ) ∧
      (middle_loop_go cfg draws clock o tis j fuel cum st).1.stats.total_outer_iterations
        = st.stats.total_outer_iterations := by
  intro fuel
  induction fuel with
  | zero =>
    intro j cum st
    rw [middle_loop_go]
    dsimp only
    exact ⟨by omega, by omega, by omega, rfl⟩
  | succ fuel ih =>
    intro j cum st
    rw [middle_loop_go]
    obtain ⟨q1, q2, q3, q4, q5⟩ := middleStep_prob_one cfg draws clock o tis j cum st hp hn hd
    obtain ⟨m1, m2, m3, m4⟩ := ih (j + 1) (middleStep cfg draws clock o tis j cum st).2
      (middleStep cfg draws clock o tis j cum st).1
    refine ⟨?_, ?_, ?_, ?_⟩
    · rw [m1, q2]
      push_cast
      ring
    · rw [m2, q3]
      push_cast
      ring
    · rw [m3, q4]
      push_cast
      ring
    · rw [m4, q5]

/-- A whole `middle_loop` under probability one bumps
`short_circuit_count` and `total_inner_iterations` by exactly
`middle_iterations.toNat` each. -/
theorem middle_loop_prob_one (cfg : TaskConfig) (draws clock : ℕ → ℚ) (o : ℤ)
    (st : ExecState) (hp : cfg.short_circuit_probability = 1)
    (hn : cfg.inner_iterations = 5) (hd : ∀ x, draws x < 1) :
    (middle_loop cfg draws clock o st).stats.short_circuit_count
      = st.stats.short_circuit_count + (cfg.middle_iterations.toNat : ℤ) ∧
    (middle_loop cfg draws clock o st).stats.total_inner_iterations
      = st.stats.total_inner_iterations + (cfg.middle_iterations.toNat : ℤ) := by
  have e : (middle_loop cfg draws clock o st).stats
      = (middle_loop_go cfg draws clock o (cfg.middle_iterations * cfg.inner_iterations) 0
          cfg.middle_iterations.toNat 0 (middlePrep cfg clock o st)).1.stats := rfl
  obtain ⟨m1, m2, m3, m4⟩ := middle_loop_go_prob_one cfg draws clock o
    (cfg.middle_iterations * cfg.inner_iterations) hp hn hd cfg.middle_iterations.toNat 0 0
    (middlePrep cfg clock o st)
  rw [e, m1, m2, (middlePrep_frame cfg clock o st).2]
  exact ⟨rfl, rfl⟩

/-- One outer-loop iteration under probability one bumps
`short_circuit_count` and `total_inner_iterations` by
`middle_iterations.toNat` each. -/
theorem outerStep_prob_one (cfg : TaskConfig) (draws clock : ℕ → ℚ) (i : ℕ)
    (st : ExecState) (hp : cfg.short_circuit_probability = 1)
    (hn : cfg.inner_iterations = 5) (hd : ∀ x, draws x < 1) :
    (outerStep cfg draws clock i st).stats.short_circuit_count
      = st.stats.short_circuit_count + (cfg.middle_iterations.toNat : ℤ) ∧
    (outerStep cfg draws clock i st).stats.total_inner_iterations
      = st.stats.total_inner_iterations + (cfg.middle_iterations.toNat : ℤ) := by
  obtain ⟨m1, m2⟩ := middle_loop_prob_one cfg draws clock (i : ℤ)
    (((st.onPM fun pm => pm.add_message (msgOuterIter i cfg.outer_iterations)).onStats
      fun s => s.add_message (msgOuterIterStats i))) hp hn hd
  constructor
  · show (middle_loop cfg draws clock (i : ℤ)
        (((st.onPM fun pm => pm.add_message (msgOuterIter i cfg.outer_iterations)).onStats
          fun s => s.add_message (msgOuterIterStats i)))).stats.short_circuit_count
      = st.stats.short_circuit_count + (cfg.middle_iterations.toNat : ℤ)
    rw [m1]
    rfl
  · show (middle_loop cfg draws clock (i : ℤ)
        (((st.onPM fun pm => pm.add_message (msgOuterIter i cfg.outer_iterations)).onStats
          fun s => s.add_message (msgOuterIterStats i)))).stats.total_inner_iterations
      = st.stats.total_inner_iterations + (cfg.middle_iterations.toNat : ℤ)
    rw [m2]
    rfl

/-- Along the outer loop under probability one, `short_circuit_count` and
`total_inner_iterations` each grow by the number of iterations times
`middle_iterations.toNat`. -/
theorem outer_loop_go_prob_one (cfg : TaskConfig) (draws clock : ℕ → ℚ)
    (hp : cfg.short_circuit_probability = 1) (hn : cfg.inner_iterations = 5)
    (hd : ∀ x, draws x < 1) :
    ∀ (fuel : ℕ) (i : ℕ) (st : ExecState),
      (outer_loop_go cfg draws clock i fuel st).stats.short_circuit_count
        = st.stats.short_circuit_count + (fuel : ℤ) * (cfg.middle_iterations.toNat : ℤ) ∧
      (outer_loop_go cfg draws clock i fuel st).stats.total_inner_iterations
        = st.stats.total_inner_iterations + (fuel : ℤ) * (cfg.middle_iterations.toNat : ℤ) := by
  intro fuel
  induction fuel with
  | zero =>
    intro i st
    rw [outer_loop_go]
    exact ⟨by push_cast; ring, by push_cast; ring⟩
  | succ fuel ih =>
    intro i st
    rw [outer_loop_go]
    obtain ⟨s1, s2⟩ := outerStep_prob_one cfg draws clock i st hp hn hd
    obtain ⟨o1, o2⟩ := ih (i + 1) (outerStep cfg draws clock i st)
    constructor
    · rw [o1, s1]
      push_cast
      ring
    · rw [o2, s2]
      push_cast
      ring

end Taskflow

namespace Taskflow

/-! ## Claim C7 -/

/-- A configuration at the C7 boundary: `short_circuit_probability = 1`
and `inner_iterations = 5`. -/
def cfgFive : TaskConfig :=
  { outer_iterations := 2, middle_iterations := 1, inner_iterations := 5,
    short_circuit_probability := 1, sleep_min := 1 / 1000, sleep_max := 1 / 1000,
    report_path := ("report.md") }

/-- The constant one-half stream, a draw sequence bounded below 1. -/
def dHalf : ℕ → ℚ := fun _ => 1 / 2

/-- C7: with `short_circuit_probability = 1` and `inner_iterations = 5`,
for every draw sequence in the range of `random.random()` (each value
below 1) and non-negative outer/middle counts: every inner loop completes
exactly one step (the guaranteed `k = 0` step) and bumps
`short_circuit_count` exactly once; and after a full run
`short_circuit_count = outer_iterations * middle_iterations` and
`total_inner_iterations = outer_iterations * middle_iterations`. -/
theorem run_full_prob_one (cfg : TaskConfig) (draws clock : ℕ → ℚ) (s e : String)
    (hp : cfg.short_circuit_probability = 1) (hn : cfg.inner_iterations = 5)
    (hd : ∀ x, draws x < 1) (ho : 0 ≤ cfg.outer_iterations)
    (hm : 0 ≤ cfg.middle_iterations) :
    (∀ (o m : ℤ) (st : ExecState),
      (inner_loop cfg draws o m st).2 = 1 ∧
      (inner_loop cfg draws o m st).1.stats.short_circuit_count
        = st.stats.short_circuit_count + 1) ∧
    (run_full cfg draws clock s e).stats.short_circuit_count
      = cfg.outer_iterations * cfg.middle_iterations ∧
    (run_full cfg draws clock s e).stats.total_inner_iterations
      = cfg.outer_iterations * cfg.middle_iterations := by
  obtain ⟨_, _, e3, e4⟩ := run_full_counts_eq cfg draws clock s e
  obtain ⟨g1, g2⟩ := outer_loop_go_prob_one cfg draws clock hp hn hd
    cfg.outer_iterations.toNat 0 (runStart cfg clock s)
  obtain ⟨_, _, z3, z4⟩ := runStart_counts cfg clock s
  refine ⟨fun o m st => ⟨(inner_loop_prob_one cfg draws o m st hp hn hd).1,
    (inner_loop_prob_one cfg draws o m st hp hn hd).2.1⟩, ?_, ?_⟩
  · rw [e4, g1, z4, Int.toNat_of_nonneg ho, Int.toNat_of_nonneg hm]
    ring
  · rw [e3, g2, z3, Int.toNat_of_nonneg ho, Int.toNat_of_nonneg hm]
    ring

/-- C7 (witness): the boundary theorem applied to the concrete
configuration `outer=2, middle=1, inner=5, short_circuit_probability=1`
with the constant one-half draw stream. -/
theorem run_full_prob_one_witness :
    (run_full cfgFive dHalf dZero ("T0") ("T1")).stats.short_circuit_count
      = cfgFive.outer_iterations * cfgFive.middle_iterations ∧
    (run_full cfgFive dHalf dZero ("T0") ("T1")).stats.total_inner_iterations
      = cfgFive.outer_iterations * cfgFive.middle_iterations :=
  (run_full_prob_one cfgFive dHalf dZero ("T0") ("T1") rfl rfl
    (fun x => by norm_num [dHalf]) (by norm_num [cfgFive]) (by norm_num [cfgFive])).2

end Taskflow
